import Mathlib

/-!
A shallow embedding of `src/main.py` (a group-chat auto-delete bot).

Python strings are modelled as `List Char` at the character level; Python's
`str.strip` / `str.lower` / `str.split(",")` / `",".join` are given explicit
executable models (`pyStrip`, `asciiLower`, `splitComma`, `joinComma`).
Machine integers are `Nat` / `Int`.  The sqlite settings table is a function
`Int → Option Row`; a store whose `ok` flag is `false` models an unreachable
persistence backend (every read/write raises, i.e. returns `Except.error`).
-/

/-- Model of the ASCII whitespace characters removed by Python `str.strip()`. -/
def isPyWS (c : Char) : Bool := [9, 10, 11, 12, 13, 32].contains c.toNat

/-- Model of Python `str.lower()` restricted to ASCII (all data handled by the
bot — digits, unit suffixes, media-type names, `on`/`off` — is ASCII). -/
def asciiLower (c : Char) : Char :=
  if 65 ≤ c.toNat ∧ c.toNat ≤ 90 then Char.ofNat (c.toNat + 32) else c

/-- Remove trailing whitespace (the right half of Python `str.strip()`). -/
def stripEnd : List Char → List Char
  | [] => []
  | c :: cs =>
    let r := stripEnd cs
    if r.isEmpty && isPyWS c then [] else c :: r

/-- Model of Python `str.strip()`: drop leading and trailing whitespace. -/
def pyStrip (l : List Char) : List Char := stripEnd (l.dropWhile isPyWS)

/-- Model of the regex class `\d` used in `parse_seconds` (ASCII digits). -/
def isDig (c : Char) : Bool := decide (48 ≤ c.toNat) && decide (c.toNat ≤ 57)

/-- Value of a digit string, as computed by Python `int(...)` on a `\d+` match. -/
def digitsVal (l : List Char) : Nat := l.foldl (fun a c => 10 * a + (c.toNat - 48)) 0

/-- `parse_seconds` from `src/main.py` lines 115-137: strip and lower the
argument; a pure digit string is seconds; otherwise `(\d+)([mhd])` scales by
60 / 3600 / 86400; anything else raises `ValueError`, modelled as `none`. -/
def parse_seconds (s : String) : Option Nat :=
  let arg := (pyStrip s.data).map asciiLower
  if arg ≠ [] ∧ arg.all isDig = true then
    some (digitsVal arg)
  else
    let ds := arg.dropLast
    if ds ≠ [] ∧ ds.all isDig = true ∧ arg.getLast? = some 'm' then
      some (digitsVal ds * 60)
    else if ds ≠ [] ∧ ds.all isDig = true ∧ arg.getLast? = some 'h' then
      some (digitsVal ds * 3600)
    else if ds ≠ [] ∧ ds.all isDig = true ∧ arg.getLast? = some 'd' then
      some (digitsVal ds * 86400)
    else none

/-- The decimal digit character for `n < 10`. -/
def digitChar : Nat → Char
  | 0 => '0' | 1 => '1' | 2 => '2' | 3 => '3' | 4 => '4'
  | 5 => '5' | 6 => '6' | 7 => '7' | 8 => '8' | _ => '9'

/-- The bare decimal string (as a character list) for a natural number. -/
def natDecimal (n : Nat) : List Char :=
  if h : n < 10 then [digitChar n]
  else natDecimal (n / 10) ++ [digitChar (n % 10)]
decreasing_by exact Nat.div_lt_self (by omega) (by omega)

theorem digitChar_toNat {n : Nat} (h : n < 10) : (digitChar n).toNat = 48 + n := by
  interval_cases n <;> decide

theorem isDig_digitChar {n : Nat} (h : n < 10) : isDig (digitChar n) = true := by
  interval_cases n <;> decide

theorem digitsVal_concat (l : List Char) (c : Char) :
    digitsVal (l ++ [c]) = 10 * digitsVal l + (c.toNat - 48) := by
  simp [digitsVal, List.foldl_append]

theorem natDecimal_ne_nil (n : Nat) : natDecimal n ≠ [] := by
  rw [natDecimal]
  split <;> simp

theorem natDecimal_all_dig (n : Nat) : ∀ c ∈ natDecimal n, isDig c = true := by
  induction n using Nat.strong_induction_on with
  | _ n ih =>
    rw [natDecimal]
    split
    · intro c hc
      simp only [List.mem_singleton] at hc
      subst hc
      exact isDig_digitChar (by omega)
    · intro c hc
      rcases List.mem_append.mp hc with h1 | h2
      · exact ih (n / 10) (Nat.div_lt_self (by omega) (by omega)) c h1
      · simp only [List.mem_singleton] at h2
        subst h2
        exact isDig_digitChar (Nat.mod_lt _ (by omega))

theorem digitsVal_natDecimal (n : Nat) : digitsVal (natDecimal n) = n := by
  induction n using Nat.strong_induction_on with
  | _ n ih =>
    rw [natDecimal]
    split
    · rename_i h
      simp [digitsVal, digitChar_toNat h]
    · rename_i h
      rw [digitsVal_concat, ih (n / 10) (Nat.div_lt_self (by omega) (by omega)),
        digitChar_toNat (Nat.mod_lt _ (by omega))]
      omega

theorem mem_stripEnd {l : List Char} {x : Char} (hx : x ∈ stripEnd l) : x ∈ l := by
  induction l with
  | nil => simpa [stripEnd] using hx
  | cons c cs ih =>
    rw [stripEnd] at hx
    split at hx
    · simp at hx
    · rcases List.mem_cons.mp hx with h | h
      · exact h ▸ List.mem_cons_self _ _
      · exact List.mem_cons_of_mem _ (ih h)

theorem stripEnd_of_no_ws {l : List Char} (h : ∀ c ∈ l, isPyWS c = false) :
    stripEnd l = l := by
  induction l with
  | nil => rfl
  | cons c cs ih =>
    rw [stripEnd]
    have hc : isPyWS c = false := h c (List.mem_cons_self _ _)
    simp [hc, ih (fun d hd => h d (List.mem_cons_of_mem _ hd))]

theorem stripEnd_idem (l : List Char) : stripEnd (stripEnd l) = stripEnd l := by
  induction l with
  | nil => rfl
  | cons c cs ih =>
    rw [stripEnd]
    split
    · rfl
    · rename_i hcond
      rw [stripEnd, ih]
      split
      · rename_i hcond2
        exact absurd hcond2 hcond
      · rfl

/-- `stripEnd` keeps the head of the list when the result is nonempty. -/
theorem stripEnd_cons_cases (c : Char) (cs : List Char) :
    stripEnd (c :: cs) = [] ∨ stripEnd (c :: cs) = c :: stripEnd cs := by
  rw [stripEnd]
  split
  · exact Or.inl rfl
  · exact Or.inr rfl

theorem dropWhile_shape (p : Char → Bool) (l : List Char) :
    l.dropWhile p = [] ∨ ∃ c cs, l.dropWhile p = c :: cs ∧ p c = false := by
  induction l with
  | nil => exact Or.inl rfl
  | cons a l ih =>
    rw [List.dropWhile_cons]
    split
    · exact ih
    · rename_i ha
      exact Or.inr ⟨a, l, rfl, by simpa using ha⟩

theorem pyStrip_idem (l : List Char) : pyStrip (pyStrip l) = pyStrip l := by
  unfold pyStrip
  rcases dropWhile_shape isPyWS l with h | ⟨c, cs, h, hc⟩
  · rw [h]; rfl
  · rw [h]
    rcases stripEnd_cons_cases c cs with h2 | h2
    · rw [h2]; rfl
    · rw [h2, List.dropWhile_cons, hc]
      simp only [Bool.false_eq_true, if_false]
      rw [← h2, stripEnd_idem]

theorem mem_pyStrip {l : List Char} {x : Char} (hx : x ∈ pyStrip l) : x ∈ l := by
  unfold pyStrip at hx
  exact (List.dropWhile_sublist _).mem (mem_stripEnd hx)

theorem dropWhile_of_no_match {p : Char → Bool} {l : List Char}
    (h : ∀ c ∈ l, p c = false) : l.dropWhile p = l := by
  cases l with
  | nil => rfl
  | cons a l =>
    rw [List.dropWhile_cons, h a (List.mem_cons_self _ _)]
    simp

theorem pyStrip_of_no_ws {l : List Char} (h : ∀ c ∈ l, isPyWS c = false) :
    pyStrip l = l := by
  unfold pyStrip
  rw [dropWhile_of_no_match h, stripEnd_of_no_ws h]

theorem map_asciiLower_of_not_upper {l : List Char}
    (h : ∀ c ∈ l, c.toNat < 65 ∨ 90 < c.toNat) : l.map asciiLower = l := by
  induction l with
  | nil => rfl
  | cons c cs ih =>
    rw [List.map_cons, ih (fun d hd => h d (List.mem_cons_of_mem _ hd))]
    have hc := h c (List.mem_cons_self _ _)
    unfold asciiLower
    rw [if_neg (by omega)]

/-- Model of Python `s.split(",")` at the character level: `splitComma []`
is `[[]]`, matching `"".split(",") == [""]`. -/
def splitComma : List Char → List (List Char)
  | [] => [[]]
  | c :: cs =>
    if c = ',' then [] :: splitComma cs
    else
      match splitComma cs with
      | [] => [[c]]
      | t :: ts => (c :: t) :: ts

/-- Model of Python `",".join(...)` at the character level. -/
def joinComma : List (List Char) → List Char
  | [] => []
  | [t] => t
  | t :: u :: us => t ++ ',' :: joinComma (u :: us)

theorem splitComma_ne_nil (l : List Char) : splitComma l ≠ [] := by
  induction l with
  | nil => simp [splitComma]
  | cons c cs ih =>
    rw [splitComma]
    split
    · simp
    · split
      · simp
      · simp

theorem not_comma_mem_splitComma {l : List Char} {t : List Char}
    (ht : t ∈ splitComma l) : ',' ∉ t := by
  induction l generalizing t with
  | nil =>
    simp only [splitComma, List.mem_singleton] at ht
    subst ht; simp
  | cons c cs ih =>
    rw [splitComma] at ht
    split at ht
    · rcases List.mem_cons.mp ht with h | h
      · subst h; simp
      · exact ih h
    · rename_i hc
      rcases h2 : splitComma cs with _ | ⟨u, us⟩
      · exact absurd h2 (splitComma_ne_nil cs)
      · rw [h2] at ht
        rcases List.mem_cons.mp ht with h | h
        · subst h
          intro hmem
          rcases List.mem_cons.mp hmem with h | h
          · exact hc h.symm
          · have hu : u ∈ splitComma cs := by
              rw [h2]; exact List.mem_cons_self u us
            exact ih hu h
        · have hts : t ∈ splitComma cs := by
            rw [h2]; exact List.mem_cons_of_mem u h
          exact ih hts

theorem splitComma_of_no_comma {t : List Char} (ht : ',' ∉ t) :
    splitComma t = [t] := by
  induction t with
  | nil => rfl
  | cons c cs ih =>
    rw [splitComma]
    rw [if_neg (by intro h; subst h; exact ht (List.mem_cons_self _ _))]
    rw [ih (fun h => ht (List.mem_cons_of_mem c h))]

theorem splitComma_token_comma {t rest : List Char} (ht : ',' ∉ t) :
    splitComma (t ++ ',' :: rest) = t :: splitComma rest := by
  induction t with
  | nil => simp [splitComma]
  | cons c cs ih =>
    rw [List.cons_append, splitComma]
    rw [if_neg (by intro h; subst h; exact ht (List.mem_cons_self _ _))]
    rw [ih (fun h => ht (List.mem_cons_of_mem c h))]

theorem splitComma_joinComma {toks : List (List Char)} (hne : toks ≠ [])
    (hc : ∀ t ∈ toks, ',' ∉ t) : splitComma (joinComma toks) = toks := by
  induction toks with
  | nil => exact absurd rfl hne
  | cons t ts ih =>
    cases ts with
    | nil =>
      rw [joinComma]
      exact splitComma_of_no_comma (hc t (List.mem_cons_self _ _))
    | cons u us =>
      have hih := ih (List.cons_ne_nil u us)
        (fun v hv => hc v (List.mem_cons_of_mem _ hv))
      rw [joinComma, splitComma_token_comma (hc t (List.mem_cons_self _ _)), hih]

/-! ## Settings store (sqlite table `group_settings`) -/

/-- The closed media-kind enumeration (`VALID_TYPES` in `src/main.py`). -/
def VALID_TYPES : List String :=
  ["photo", "video", "document", "voice", "sticker", "animation", "video_note"]

/-- Effective settings as returned by `get_settings` (a Python dict with keys
`ttl`, `enabled`, `delete_admins`, `types`).  The `types` value is a Python
set; it is modelled as a list compared up to membership. -/
structure Settings where
  ttl : Nat
  enabled : Bool
  delete_admins : Bool
  types : List String
deriving DecidableEq

/-- One row of the `group_settings` table.  `enabled` / `delete_admins` are
stored as `INTEGER` via Python `int(bool)` and read back via `bool(int)`,
which round-trips, so they are modelled as `Bool` directly; `media_types` is
the `TEXT` column. -/
structure Row where
  ttl_seconds : Nat
  enabled : Bool
  delete_admins : Bool
  media_types : String
deriving DecidableEq

/-- The sqlite database.  `ok = false` models an unreachable persistence
backend: every read or write raises (`Except.error`). -/
structure Store where
  ok : Bool
  rows : Int → Option Row

/-- Process-wide defaults (`DEFAULT_TTL`, `ENABLED`, `DELETE_ADMINS`,
`MEDIA_TYPES` environment configuration, read once at startup). -/
structure Defaults where
  ttl : Nat
  enabled : Bool
  delete_admins : Bool
  types : List String

inductive StoreErr where
  | storeFailure
deriving DecidableEq

/-- Python `sorted(...)` on strings (ascending lexicographic order). -/
def sortStrings (l : List String) : List String :=
  l.insertionSort (fun a b => ¬ b < a)

/-- Reading the `media_types` TEXT column back into a set, as in
`src/main.py` line 71:
`set(t.strip() for t in (media_types or "").split(",") if t.strip())`. -/
def parseTypesField (s : String) : List String :=
  ((((splitComma s.data).map pyStrip).filter (fun t => !t.isEmpty)).dedup).map
    (fun t => String.mk t)

/-- Serializing the set for storage, as in `src/main.py` line 81:
`",".join(sorted(types))`. -/
def joinTypesField (tys : List String) : String :=
  String.mk (joinComma ((sortStrings tys).map String.data))

/-- `get_settings` from `src/main.py` lines 55-77: select the row for
`chat_id`; absent row yields the process-wide defaults (nothing is written).
A store access failure propagates (the sqlite call raises). -/
def get_settings (d : Defaults) (st : Store) (chat_id : Int) :
    Except StoreErr Settings :=
  if st.ok then
    match st.rows chat_id with
    | none => .ok ⟨d.ttl, d.enabled, d.delete_admins, d.types⟩
    | some r => .ok ⟨r.ttl_seconds, r.enabled, r.delete_admins,
        parseTypesField r.media_types⟩
  else .error .storeFailure

/-- State-transformer view of `get_settings`: the `SELECT` performs no write,
so the store component of the result is the input store unchanged. -/
def get_settingsS (d : Defaults) (st : Store) (chat_id : Int) :
    Except StoreErr Settings × Store :=
  (get_settings d st chat_id, st)

/-- `save_settings` from `src/main.py` lines 80-95: upsert the full record
for `chat_id` (`INSERT ... ON CONFLICT ... DO UPDATE` of all four fields). -/
def save_settings (st : Store) (chat_id : Int) (ttl : Nat) (enabled : Bool)
    (delete_admins : Bool) (types : List String) : Except StoreErr Store :=
  if st.ok then
    .ok { ok := true,
          rows := fun c =>
            if c = chat_id then
              some ⟨ttl, enabled, delete_admins, joinTypesField types⟩
            else st.rows c }
  else .error .storeFailure

/-! ## Message events and eligibility (`detect_media_type`, `handle_media`) -/

/-- Role enumeration returned by `get_chat_member` (the Membership Oracle). -/
inductive MemberStatus where
  | administrator
  | owner
  | member
  | restricted
  | left
  | banned
deriving DecidableEq

/-- `member.status in (ChatMemberStatus.ADMINISTRATOR, ChatMemberStatus.OWNER)`. -/
def isAdminStatus (m : MemberStatus) : Bool :=
  m = MemberStatus.administrator ∨ m = MemberStatus.owner

/-- The shape of an incoming message event consumed by `handle_media`:
chat id and type, message id, optional author, and the seven media-content
presence probes. -/
structure Msg where
  chat_id : Int
  chat_type : String
  message_id : Nat
  from_user : Option Nat
  photo : Bool
  video : Bool
  document : Bool
  voice : Bool
  sticker : Bool
  animation : Bool
  video_note : Bool

/-- `chat.type in ("group", "supergroup")` from `src/main.py` line 282. -/
def isGroupChat (t : String) : Bool := t = "group" ∨ t = "supergroup"

/-- `detect_media_type` from `src/main.py` lines 260-276: first-match
classification in the fixed probe order. -/
def detect_media_type (m : Msg) : Option String :=
  if m.photo then some "photo"
  else if m.video then some "video"
  else if m.document then some "document"
  else if m.voice then some "voice"
  else if m.sticker then some "sticker"
  else if m.animation then some "animation"
  else if m.video_note then some "video_note"
  else none

/-- An ephemeral scheduled deletion (`PendingDeletion` in the spec): the data
flowing into `asyncio.sleep` / `msg.delete()` at `src/main.py` lines 299-304. -/
structure PendingDeletion where
  chat_id : Int
  message_id : Nat
  ttl_seconds : Nat
deriving DecidableEq

/-- Whether the author of `m` holds admin or owner role according to the
oracle; an absent author never does. -/
def authorIsAdmin (oracle : Int → Nat → MemberStatus) (m : Msg) : Bool :=
  match m.from_user with
  | some u => isAdminStatus (oracle m.chat_id u)
  | none => false

/-- The decision part of `handle_media` (`src/main.py` lines 279-299): the
chain of early returns ending either in no scheduling (`none`) or in
scheduling one `PendingDeletion` with the effective TTL.  A settings-store
failure propagates out of the handler (the `get_settings` call at line 285
sits in no `try` block). -/
def handle_media (d : Defaults) (st : Store) (oracle : Int → Nat → MemberStatus)
    (m : Msg) : Except StoreErr (Option PendingDeletion) :=
  if ¬ isGroupChat m.chat_type then .ok none
  else
    match get_settings d st m.chat_id with
    | .error e => .error e
    | .ok s =>
      if ¬ s.enabled then .ok none
      else
        match detect_media_type m with
        | none => .ok none
        | some k =>
          if k ∉ s.types then .ok none
          else
            if ¬ s.delete_admins then
              match m.from_user with
              | some u =>
                if isAdminStatus (oracle m.chat_id u) then .ok none
                else .ok (some ⟨m.chat_id, m.message_id, s.ttl⟩)
              | none => .ok (some ⟨m.chat_id, m.message_id, s.ttl⟩)
            else .ok (some ⟨m.chat_id, m.message_id, s.ttl⟩)

/-! ## The scheduled deletion itself (`src/main.py` lines 299-304) -/

inductive DeleteErr where
  | alreadyGone
  | noPermission
  | chatGone
  | network
deriving DecidableEq

inductive PendState where
  | deleted
  | skipped
deriving DecidableEq

/-- Outcome of running one `PendingDeletion` to completion: the list of
delete requests issued to the platform (with the wall-clock instant of each),
whether an exception escaped the handler, and the final state. -/
structure ExecResult where
  attempts : List (Nat × Int × Nat)
  raised : Bool
  final : PendState
deriving DecidableEq

/-- Execution of `src/main.py` lines 299-304 starting at instant `t0`:
`await asyncio.sleep(int(s["ttl"]))` advances the clock by the TTL, then the
single `await msg.delete()` issues one delete request inside
`try: ... except Exception: pass`, so a platform failure is swallowed
(`raised = false`, final state `skipped`) and never re-attempted. -/
def run_pending (platform : Int → Nat → Except DeleteErr Unit)
    (p : PendingDeletion) (t0 : Nat) : ExecResult :=
  let tDel := t0 + p.ttl_seconds
  match platform p.chat_id p.message_id with
  | .ok _ => ⟨[(tDel, p.chat_id, p.message_id)], false, .deleted⟩
  | .error _ => ⟨[(tDel, p.chat_id, p.message_id)], false, .skipped⟩

/-! ## Command surface (`cmd_setttl`, `cmd_pause`, `cmd_resume`,
`cmd_deleteadmins`, `cmd_types`) -/

/-- The user-visible replies the command handlers can send (the exact wording
is presentation detail; constructors carry the data interpolated into it). -/
inductive Reply where
  | notAdmin
  | ttlUsage
  | ttlBadFormat
  | ttlBadRange
  | ttlSet (n : Nat)
  | paused
  | resumed
  | daUsage
  | deleteAdminsSet (v : Bool)
  | typesUsage
  | invalidTypes (bad : List String)
  | typesSet (tys : List String)
deriving DecidableEq

/-- `cmd_setttl` from `src/main.py` lines 167-187.  `isAdm` is the result of
the `require_admin` gate; `args` is `context.args`.  Parse errors and
out-of-range values reply and return before any store access; on success the
handler read-modify-writes the full record, changing only the TTL. -/
def cmd_setttl (d : Defaults) (st : Store) (chat_id : Int) (isAdm : Bool)
    (args : List String) : Except StoreErr (Store × Reply) :=
  if ¬ isAdm then .ok (st, .notAdmin)
  else
    match args with
    | [] => .ok (st, .ttlUsage)
    | a :: _ =>
      match parse_seconds a with
      | none => .ok (st, .ttlBadFormat)
      | some ttl =>
        if ttl < 10 ∨ 7 * 86400 < ttl then .ok (st, .ttlBadRange)
        else
          match get_settings d st chat_id with
          | .error e => .error e
          | .ok s =>
            match save_settings st chat_id ttl s.enabled s.delete_admins s.types with
            | .error e => .error e
            | .ok st' => .ok (st', .ttlSet ttl)

/-- `cmd_pause` from `src/main.py` lines 190-198. -/
def cmd_pause (d : Defaults) (st : Store) (chat_id : Int) (isAdm : Bool) :
    Except StoreErr (Store × Reply) :=
  if ¬ isAdm then .ok (st, .notAdmin)
  else
    match get_settings d st chat_id with
    | .error e => .error e
    | .ok s =>
      match save_settings st chat_id s.ttl false s.delete_admins s.types with
      | .error e => .error e
      | .ok st' => .ok (st', .paused)

/-- `cmd_resume` from `src/main.py` lines 201-209. -/
def cmd_resume (d : Defaults) (st : Store) (chat_id : Int) (isAdm : Bool) :
    Except StoreErr (Store × Reply) :=
  if ¬ isAdm then .ok (st, .notAdmin)
  else
    match get_settings d st chat_id with
    | .error e => .error e
    | .ok s =>
      match save_settings st chat_id s.ttl true s.delete_admins s.types with
      | .error e => .error e
      | .ok st' => .ok (st', .resumed)

/-- `cmd_deleteadmins` from `src/main.py` lines 212-224. -/
def cmd_deleteadmins (d : Defaults) (st : Store) (chat_id : Int) (isAdm : Bool)
    (args : List String) : Except StoreErr (Store × Reply) :=
  if ¬ isAdm then .ok (st, .notAdmin)
  else
    match args with
    | [] => .ok (st, .daUsage)
    | a :: _ =>
      let al := String.mk (a.data.map asciiLower)
      if al ≠ "on" ∧ al ≠ "off" then .ok (st, .daUsage)
      else
        let v := al == "on"
        match get_settings d st chat_id with
        | .error e => .error e
        | .ok s =>
          match save_settings st chat_id s.ttl s.enabled v s.types with
          | .error e => .error e
          | .ok st' => .ok (st', .deleteAdminsSet v)

/-- The token set parsed by `cmd_types` (`src/main.py` lines 240-242):
`raw = " ".join(args).replace(" ", "")`, split on commas, strip, drop empty,
lower, collect into a set. -/
def typesTokens (args : List String) : List String :=
  let raw := (String.intercalate " " args).data.filter (fun c => c ≠ ' ')
  ((((splitComma raw).filter (fun p => !(pyStrip p).isEmpty)).map
      (fun p => String.mk ((pyStrip p).map asciiLower))).dedup)

/-- The invalid tokens named in the rejection reply (`src/main.py` line 244):
`bad = [t for t in types if t not in VALID_TYPES]`. -/
def typesBad (args : List String) : List String :=
  (typesTokens args).filter (fun t => ¬ t ∈ VALID_TYPES)

/-- `cmd_types` from `src/main.py` lines 227-257. -/
def cmd_types (d : Defaults) (st : Store) (chat_id : Int) (isAdm : Bool)
    (args : List String) : Except StoreErr (Store × Reply) :=
  if ¬ isAdm then .ok (st, .notAdmin)
  else
    match args with
    | [] => .ok (st, .typesUsage)
    | _ :: _ =>
      if typesBad args ≠ [] then .ok (st, .invalidTypes (typesBad args))
      else
        match get_settings d st chat_id with
        | .error e => .error e
        | .ok s =>
          match save_settings st chat_id s.ttl s.enabled s.delete_admins
              (typesTokens args) with
          | .error e => .error e
          | .ok st' => .ok (st', .typesSet (typesTokens args))

/-! ## Concrete fixtures used by witnesses -/

/-- The startup defaults of `src/main.py` with an unset environment:
`DEFAULT_TTL = 300`, `ENABLED = true`, `DELETE_ADMINS = false`,
`MEDIA_TYPES = photo,video,document`. -/
def defaults0 : Defaults := ⟨300, true, false, ["photo", "video", "document"]⟩

/-- A reachable store with no saved group settings. -/
def store0 : Store := ⟨true, fun _ => none⟩

/-- A store whose backend is unreachable: every access raises. -/
def storeDown : Store := ⟨false, fun _ => none⟩

/-- A photo message from user 7 in supergroup -100. -/
def photoMsg : Msg :=
  ⟨-100, "supergroup", 5, some 7, true, false, false, false, false, false, false⟩

/-- A photo message with no author (anonymous/channel post). -/
def anonPhotoMsg : Msg :=
  ⟨-100, "supergroup", 5, none, true, false, false, false, false, false, false⟩

/-- An oracle under which everyone is a plain member. -/
def memberOracle : Int → Nat → MemberStatus := fun _ _ => .member

/-- An oracle under which everyone is an administrator. -/
def adminOracle : Int → Nat → MemberStatus := fun _ _ => .administrator

/-! ## Auxiliary lemmas about digits and parsing -/

theorem isDig_not_ws {c : Char} (h : isDig c = true) : isPyWS c = false := by
  unfold isDig at h
  simp only [Bool.and_eq_true, decide_eq_true_eq] at h
  rw [Bool.eq_false_iff]
  intro hws
  simp [isPyWS] at hws
  omega

theorem isDig_not_upper {c : Char} (h : isDig c = true) :
    c.toNat < 65 ∨ 90 < c.toNat := by
  unfold isDig at h
  simp only [Bool.and_eq_true, decide_eq_true_eq] at h
  omega

/-- `parse_seconds` on a nonempty pure digit string takes the first regex
branch and returns the digit value. -/
theorem parse_seconds_digits {l : List Char} (hne : l ≠ [])
    (hd : ∀ c ∈ l, isDig c = true) :
    parse_seconds (String.mk l) = some (digitsVal l) := by
  have hstrip : pyStrip l = l :=
    pyStrip_of_no_ws (fun c hc => isDig_not_ws (hd c hc))
  have hlower : l.map asciiLower = l :=
    map_asciiLower_of_not_upper (fun c hc => isDig_not_upper (hd c hc))
  unfold parse_seconds
  simp only
  rw [hstrip, hlower, if_pos ⟨hne, List.all_eq_true.mpr hd⟩]

/-- `parse_seconds` on digits followed by a unit suffix takes the second
regex branch and scales by the unit. -/
theorem parse_seconds_unit {l : List Char} (hne : l ≠ [])
    (hd : ∀ c ∈ l, isDig c = true) {u : Char}
    (hu : u = 'm' ∨ u = 'h' ∨ u = 'd') :
    parse_seconds (String.mk (l ++ [u])) =
      some (digitsVal l *
        (if u = 'm' then 60 else if u = 'h' then 3600 else 86400)) := by
  have hws : ∀ c ∈ l ++ [u], isPyWS c = false := by
    intro c hc
    rcases List.mem_append.mp hc with h | h
    · exact isDig_not_ws (hd c h)
    · simp only [List.mem_singleton] at h
      subst h
      rcases hu with h | h | h <;> subst h <;> decide
  have hupper : ∀ c ∈ l ++ [u], c.toNat < 65 ∨ 90 < c.toNat := by
    intro c hc
    rcases List.mem_append.mp hc with h | h
    · exact isDig_not_upper (hd c h)
    · simp only [List.mem_singleton] at h
      subst h
      rcases hu with h | h | h <;> subst h <;> decide
  have hstrip : pyStrip (l ++ [u]) = l ++ [u] := pyStrip_of_no_ws hws
  have hlower : (l ++ [u]).map asciiLower = l ++ [u] :=
    map_asciiLower_of_not_upper hupper
  have hnotall : ¬ ((l ++ [u]) ≠ [] ∧ (l ++ [u]).all isDig = true) := by
    rintro ⟨-, hall⟩
    have hu' := List.all_eq_true.mp hall u
      (List.mem_append.mpr (Or.inr (List.mem_singleton.mpr rfl)))
    rcases hu with h | h | h <;> subst h <;> simp [isDig] at hu'
  unfold parse_seconds
  simp only
  rw [hstrip, hlower, if_neg hnotall, List.getLast?_concat,
    List.dropLast_concat]
  have hds : l ≠ [] ∧ l.all isDig = true := ⟨hne, List.all_eq_true.mpr hd⟩
  rcases hu with h | h | h <;> subst h
  · rw [if_pos ⟨hds.1, hds.2, rfl⟩]
    simp
  · rw [if_neg (by simp), if_pos ⟨hds.1, hds.2, rfl⟩]
    simp
  · rw [if_neg (by simp), if_neg (by simp), if_pos ⟨hds.1, hds.2, rfl⟩]
    simp

/-! ## C2: one delete attempt, at TTL after scheduling, after the wait -/

/-- C2: for every scheduled `PendingDeletion` with TTL `t`, running it from
scheduling instant `t0` issues exactly one delete attempt for its
`(chat_id, message_id)`, stamped `t0 + t` — i.e. no earlier than `t` seconds
after scheduling began, and only after the TTL wait has completed (the sleep
is what advances the clock from `t0` to `t0 + t`); the singleton attempt list
shows the attempt is never repeated, whatever the platform outcome. -/
theorem C2_single_attempt_after_ttl
    (platform : Int → Nat → Except DeleteErr Unit) (p : PendingDeletion)
    (t0 : Nat) :
    (run_pending platform p t0).attempts =
      [(t0 + p.ttl_seconds, p.chat_id, p.message_id)] := by
  unfold run_pending
  cases platform p.chat_id p.message_id <;> rfl

/-! ## C4: delete failures are swallowed, never retried -/

/-- C4: whatever the platform answers (success or any failure), the handler
raises no exception and issues exactly one delete attempt — a failing delete
is caught and discarded, with no retry; a failure ends in state `skipped`. -/
theorem C4_failure_swallowed_no_retry
    (platform : Int → Nat → Except DeleteErr Unit) (p : PendingDeletion)
    (t0 : Nat) :
    (run_pending platform p t0).raised = false ∧
      (run_pending platform p t0).attempts.length = 1 ∧
      (∀ e, platform p.chat_id p.message_id = .error e →
        (run_pending platform p t0).final = PendState.skipped) := by
  unfold run_pending
  cases hpl : platform p.chat_id p.message_id with
  | ok _ => exact ⟨rfl, rfl, fun e he => Except.noConfusion he⟩
  | error _ => exact ⟨rfl, rfl, fun e _ => rfl⟩

/-- Witness for C4 on a platform that refuses the delete with a permission
failure. -/
theorem C4_failure_swallowed_witness :
    (run_pending (fun _ _ => Except.error DeleteErr.noPermission)
      ⟨-100, 5, 300⟩ 0).raised = false ∧
    (run_pending (fun _ _ => Except.error DeleteErr.noPermission)
      ⟨-100, 5, 300⟩ 0).attempts.length = 1 ∧
    (∀ e, (Except.error DeleteErr.noPermission : Except DeleteErr Unit) =
        Except.error e →
      (run_pending (fun _ _ => Except.error DeleteErr.noPermission)
        ⟨-100, 5, 300⟩ 0).final = PendState.skipped) :=
  C4_failure_swallowed_no_retry
    (fun _ _ => Except.error DeleteErr.noPermission) ⟨-100, 5, 300⟩ 0

/-! ## C7: TTL shorthand round-trips -/

/-- C7: for every `n` in `[10, 604800]`, `parse_seconds` maps the bare
decimal string of `n` back to `n`; and when `n` is divisible by 60 / 3600 /
86400, the quotient followed by the `m` / `h` / `d` suffix also parses to
`n`. -/
theorem C7_ttl_roundtrip (n : Nat) (h1 : 10 ≤ n) (h2 : n ≤ 604800) :
    parse_seconds (String.mk (natDecimal n)) = some n ∧
    (60 ∣ n →
      parse_seconds (String.mk (natDecimal (n / 60) ++ ['m'])) = some n) ∧
    (3600 ∣ n →
      parse_seconds (String.mk (natDecimal (n / 3600) ++ ['h'])) = some n) ∧
    (86400 ∣ n →
      parse_seconds (String.mk (natDecimal (n / 86400) ++ ['d'])) = some n) := by
  refine ⟨?_, fun hm => ?_, fun hh => ?_, fun hd => ?_⟩
  · rw [parse_seconds_digits (natDecimal_ne_nil n) (natDecimal_all_dig n),
      digitsVal_natDecimal]
  · rw [parse_seconds_unit (natDecimal_ne_nil _) (natDecimal_all_dig _)
      (Or.inl rfl)]
    rw [if_pos rfl, digitsVal_natDecimal, Nat.div_mul_cancel hm]
  · rw [parse_seconds_unit (natDecimal_ne_nil _) (natDecimal_all_dig _)
      (Or.inr (Or.inl rfl))]
    rw [if_neg (by decide), if_pos rfl, digitsVal_natDecimal,
      Nat.div_mul_cancel hh]
  · rw [parse_seconds_unit (natDecimal_ne_nil _) (natDecimal_all_dig _)
      (Or.inr (Or.inr rfl))]
    rw [if_neg (by decide), if_neg (by decide), digitsVal_natDecimal,
      Nat.div_mul_cancel hd]

/-- Witness for C7 at `n = 86400` (divisible by 60, 3600 and 86400). -/
theorem C7_ttl_roundtrip_witness :
    parse_seconds (String.mk (natDecimal 86400)) = some 86400 ∧
    parse_seconds (String.mk (natDecimal (86400 / 60) ++ ['m'])) = some 86400 ∧
    parse_seconds (String.mk (natDecimal (86400 / 3600) ++ ['h'])) = some 86400 ∧
    parse_seconds (String.mk (natDecimal (86400 / 86400) ++ ['d'])) = some 86400 := by
  have h := C7_ttl_roundtrip 86400 (by norm_num) (by norm_num)
  exact ⟨h.1, h.2.1 (by norm_num), h.2.2.1 (by norm_num), h.2.2.2 (by norm_num)⟩

/-! ## C8: invalid TTL argument replies and mutates nothing -/

/-- C8: if the first `/setttl` argument is malformed (`parse_seconds` fails)
or parses outside `[10, 604800]`, the command replies with a validation
error (bad-format or bad-range) and returns the store exactly as it was —
no record is created or updated. -/
theorem C8_setttl_invalid_no_mutation (d : Defaults) (st : Store)
    (chat_id : Int) (a : String) (rest : List String)
    (hbad : parse_seconds a = none ∨
      ∃ n, parse_seconds a = some n ∧ (n < 10 ∨ 604800 < n)) :
    ∃ r, cmd_setttl d st chat_id true (a :: rest) = .ok (st, r) ∧
      (r = Reply.ttlBadFormat ∨ r = Reply.ttlBadRange) := by
  unfold cmd_setttl
  rw [if_neg (by simp)]
  simp only
  rcases hbad with hnone | ⟨n, hsome, hrange⟩
  · rw [hnone]
    exact ⟨.ttlBadFormat, rfl, Or.inl rfl⟩
  · rw [hsome]
    simp only
    rw [if_pos (by omega)]
    exact ⟨.ttlBadRange, rfl, Or.inr rfl⟩

/-- Witness for C8 on the malformed argument `"abc"`. -/
theorem C8_setttl_invalid_witness :
    ∃ r, cmd_setttl defaults0 store0 (-100) true ["abc"] = .ok (store0, r) ∧
      (r = Reply.ttlBadFormat ∨ r = Reply.ttlBadRange) :=
  C8_setttl_invalid_no_mutation defaults0 store0 (-100) "abc" []
    (Or.inl (by decide))

/-! ## C9: invalid media-type tokens are all named, nothing stored -/

/-- C9: if the parsed `/types` argument contains any token outside
`VALID_TYPES`, the command replies with exactly the list of invalid tokens
(every parsed token outside the enumeration, and nothing else) and returns
the store unchanged — no upsert happens. -/
theorem C9_types_invalid_no_mutation (d : Defaults) (st : Store)
    (chat_id : Int) (args : List String) (h : typesBad args ≠ []) :
    cmd_types d st chat_id true args = .ok (st, .invalidTypes (typesBad args)) ∧
    ∀ t, t ∈ typesBad args ↔ (t ∈ typesTokens args ∧ t ∉ VALID_TYPES) := by
  constructor
  · unfold cmd_types
    rw [if_neg (by simp)]
    cases args with
    | nil => exact absurd rfl h
    | cons a as =>
      simp only
      rw [if_pos h]
  · intro t
    unfold typesBad
    rw [List.mem_filter]
    simp

/-- Witness for C9 on `/types photo,banana`. -/
theorem C9_types_invalid_witness :
    cmd_types defaults0 store0 (-100) true ["photo,banana"] =
      .ok (store0, .invalidTypes (typesBad ["photo,banana"])) ∧
    ∀ t, t ∈ typesBad ["photo,banana"] ↔
      (t ∈ typesTokens ["photo,banana"] ∧ t ∉ VALID_TYPES) :=
  C9_types_invalid_no_mutation defaults0 store0 (-100) ["photo,banana"]
    (by decide)

/-! ## C1: the eligibility characterization -/

/-- C1: a deletion is scheduled for an incoming message if and only if the
chat is group-type, the effective settings are enabled, classification
yields a kind inside the effective `media_types`, and either
`delete_admins` is `true` or the author does not hold admin/owner role per
the oracle (an absent author holds no role). -/
theorem C1_eligibility (d : Defaults) (st : Store)
    (oracle : Int → Nat → MemberStatus) (m : Msg) (s : Settings)
    (hs : get_settings d st m.chat_id = .ok s) :
    (∃ p, handle_media d st oracle m = .ok (some p)) ↔
      (isGroupChat m.chat_type = true ∧ s.enabled = true ∧
        (∃ k, detect_media_type m = some k ∧ k ∈ s.types) ∧
        (s.delete_admins = true ∨ authorIsAdmin oracle m = false)) := by
  unfold handle_media
  cases hg : isGroupChat m.chat_type with
  | false => simp [hg]
  | true =>
    rw [if_neg (by simp), hs]
    simp only [hg, true_and]
    cases hen : s.enabled with
    | false => simp
    | true =>
      rw [if_neg (by simp)]
      simp only [true_and]
      cases hk : detect_media_type m with
      | none => simp
      | some k =>
        simp only [Option.some.injEq]
        by_cases hmem : k ∈ s.types
        · rw [if_neg (by simp [hmem])]
          cases hda : s.delete_admins with
          | true =>
            rw [if_neg (by simp)]
            simp [hmem]
          | false =>
            rw [if_pos (by simp)]
            unfold authorIsAdmin
            cases hu : m.from_user with
            | none => simp [hmem]
            | some u =>
              cases hadm : isAdminStatus (oracle m.chat_id u) with
              | true => simp [hadm, hmem]
              | false => simp [hadm, hmem]
        · rw [if_pos hmem]
          constructor
          · rintro ⟨p, hp⟩
            exact Option.noConfusion (Except.ok.inj hp)
          · rintro ⟨⟨k', hk', hmem'⟩, -⟩
            cases hk'
            exact absurd hmem' hmem

/-- Witness for C1 at a concrete eligible photo message in an enabled group
with `delete_admins = false` and a non-admin author. -/
theorem C1_eligibility_witness :
    (∃ p, handle_media defaults0 store0 memberOracle photoMsg = .ok (some p)) ↔
      (isGroupChat photoMsg.chat_type = true ∧
        (⟨300, true, false, ["photo", "video", "document"]⟩ : Settings).enabled = true ∧
        (∃ k, detect_media_type photoMsg = some k ∧
          k ∈ (⟨300, true, false, ["photo", "video", "document"]⟩ : Settings).types) ∧
        ((⟨300, true, false, ["photo", "video", "document"]⟩ : Settings).delete_admins = true ∨
          authorIsAdmin memberOracle photoMsg = false)) :=
  C1_eligibility defaults0 store0 memberOracle photoMsg
    ⟨300, true, false, ["photo", "video", "document"]⟩ rfl

/-! ## C10: authorless media is eligible, with no role lookup -/

/-- C10: in an enabled group whose effective settings have
`delete_admins = false`, a media message of a targeted kind that carries no
author is scheduled for deletion, and the admin-role lookup is skipped
entirely: the outcome is the same under every oracle. -/
theorem C10_anonymous_author_eligible (d : Defaults) (st : Store)
    (o o' : Int → Nat → MemberStatus) (m : Msg) (s : Settings) (k : String)
    (hg : isGroupChat m.chat_type = true)
    (hs : get_settings d st m.chat_id = .ok s)
    (hen : s.enabled = true)
    (hk : detect_media_type m = some k) (hmem : k ∈ s.types)
    (hda : s.delete_admins = false) (hanon : m.from_user = none) :
    handle_media d st o m = .ok (some ⟨m.chat_id, m.message_id, s.ttl⟩) ∧
    handle_media d st o m = handle_media d st o' m := by
  have key : ∀ oo : Int → Nat → MemberStatus,
      handle_media d st oo m = .ok (some ⟨m.chat_id, m.message_id, s.ttl⟩) := by
    intro oo
    unfold handle_media
    rw [if_neg (by simp [hg]), hs]
    simp only [hen]
    rw [if_neg (by simp), hk]
    simp only
    rw [if_neg (by simp [hmem]), if_pos (by simp [hda]), hanon]
  exact ⟨key o, (key o).trans (key o').symm⟩

/-- Witness for C10: an authorless photo in an enabled supergroup under the
default settings is scheduled even though every user is an administrator
according to one of the two oracles. -/
theorem C10_anonymous_author_witness :
    handle_media defaults0 store0 adminOracle anonPhotoMsg =
      .ok (some ⟨-100, 5, 300⟩) ∧
    handle_media defaults0 store0 adminOracle anonPhotoMsg =
      handle_media defaults0 store0 memberOracle anonPhotoMsg :=
  C10_anonymous_author_eligible defaults0 store0 adminOracle memberOracle
    anonPhotoMsg ⟨300, true, false, ["photo", "video", "document"]⟩ "photo"
    (by decide) rfl (by decide) (by decide) (by decide) (by decide)
    (by decide)

/-! ## C5: a settings-store failure during message handling -/

/-- C5 counterexample: with the store backend down, `handle_media` on a
group photo message does not treat the message as ineligible (which would be
`.ok none`): the `get_settings` call at `src/main.py` line 285 sits in no
`try` block, so the store error propagates out of the handler.  The claim
that the message-handling path catches the failure and proceeds as
ineligible is therefore false on the code. -/
theorem C5_store_failure_cex :
    handle_media defaults0 storeDown memberOracle photoMsg =
      .error .storeFailure := rfl

/-- C5 amended: when the settings store is unreachable, both paths simply
propagate the error.  `handle_media` on a group-chat message raises (so no
deletion is attempted, but the handler does not return normally), and
`cmd_setttl` with a valid TTL argument raises after parsing, before any
mutation and before any reply is produced — the invoking admin receives no
confirmation and no explicit error message from the handler itself. -/
theorem C5_store_failure_propagates (d : Defaults) (st : Store)
    (o : Int → Nat → MemberStatus) (m : Msg) (chat_id : Int) (a : String)
    (rest : List String) (n : Nat) (hdown : st.ok = false)
    (hg : isGroupChat m.chat_type = true)
    (hparse : parse_seconds a = some n) (h1 : 10 ≤ n) (h2 : n ≤ 604800) :
    handle_media d st o m = .error .storeFailure ∧
    cmd_setttl d st chat_id true (a :: rest) = .error .storeFailure := by
  have hget : get_settings d st chat_id = .error .storeFailure := by
    unfold get_settings
    rw [if_neg (by simp [hdown])]
  have hgetm : get_settings d st m.chat_id = .error .storeFailure := by
    unfold get_settings
    rw [if_neg (by simp [hdown])]
  constructor
  · unfold handle_media
    rw [if_neg (by simp [hg]), hgetm]
  · unfold cmd_setttl
    rw [if_neg (by simp)]
    simp only
    rw [hparse]
    simp only
    rw [if_neg (by omega), hget]

/-- Witness for the amended C5 with the backend down, a group photo message
and the valid argument `"300"`. -/
theorem C5_store_failure_witness :
    handle_media defaults0 storeDown memberOracle photoMsg =
      .error .storeFailure ∧
    cmd_setttl defaults0 storeDown (-100) true ["300"] =
      .error .storeFailure :=
  C5_store_failure_propagates defaults0 storeDown memberOracle photoMsg
    (-100) "300" [] 300 rfl (by decide) (by decide) (by norm_num) (by norm_num)

/-! ## C6: defaults on absent record, read-only resolve, per-field frame -/

/-- A well-formed stored media-type token, as produced by the split/strip
pipeline of `get_settings` (and by the environment parsing of the default
set): nonempty, comma-free, and strip-invariant. -/
def validTok (s : String) : Prop :=
  s.data ≠ [] ∧ ',' ∉ s.data ∧ pyStrip s.data = s.data

instance (s : String) : Decidable (validTok s) := by
  unfold validTok
  infer_instance

theorem validTok_VALID_TYPES : ∀ t ∈ VALID_TYPES, validTok t := by decide

theorem map_fixed {α : Type} (f : α → α) (l : List α)
    (h : ∀ x ∈ l, f x = x) : l.map f = l := by
  induction l with
  | nil => rfl
  | cons a l ih =>
    rw [List.map_cons, h a (List.mem_cons_self _ _),
      ih (fun x hx => h x (List.mem_cons_of_mem _ hx))]

/-- Every token produced by `parseTypesField` is well-formed. -/
theorem parseTypesField_valid (str : String) :
    ∀ t ∈ parseTypesField str, validTok t := by
  intro t ht
  unfold parseTypesField at ht
  simp only [List.mem_map, List.mem_dedup, List.mem_filter] at ht
  obtain ⟨u, ⟨⟨v, hv, rfl⟩, hne⟩, rfl⟩ := ht
  refine ⟨?_, ?_, ?_⟩
  · intro hEq
    have hEq' : pyStrip v = [] := hEq
    rw [hEq'] at hne
    simp at hne
  · intro hmem
    exact not_comma_mem_splitComma hv (mem_pyStrip hmem)
  · exact pyStrip_idem v

/-- The set round-trip through the `media_types` TEXT column: serializing a
set of well-formed tokens with `",".join(sorted(...))` and re-parsing yields
the same set. -/
theorem parse_join_types_mem (tys : List String)
    (hv : ∀ t ∈ tys, validTok t) :
    ∀ x, x ∈ parseTypesField (joinTypesField tys) ↔ x ∈ tys := by
  have hperm : List.Perm (sortStrings tys) tys := List.perm_insertionSort _ _
  have hmemsort : ∀ x, x ∈ sortStrings tys ↔ x ∈ tys := fun x => hperm.mem_iff
  cases htys : tys with
  | nil =>
    intro x
    subst htys
    show x ∈ parseTypesField (joinTypesField []) ↔ x ∈ []
    rw [show parseTypesField (joinTypesField []) = [] from rfl]
  | cons t0 trest =>
    subst htys
    intro x
    have hsne : sortStrings (t0 :: trest) ≠ [] := by
      intro hEq
      have := (hmemsort t0).mpr (List.mem_cons_self _ _)
      rw [hEq] at this
      simp at this
    have hL : ∀ u ∈ (sortStrings (t0 :: trest)).map String.data, ',' ∉ u := by
      intro u hu
      simp only [List.mem_map] at hu
      obtain ⟨v, hv', rfl⟩ := hu
      exact (hv v ((hmemsort v).mp hv')).2.1
    have hLne : (sortStrings (t0 :: trest)).map String.data ≠ [] := by
      simpa using hsne
    have hsplit : splitComma (joinComma ((sortStrings (t0 :: trest)).map String.data)) =
        (sortStrings (t0 :: trest)).map String.data :=
      splitComma_joinComma hLne hL
    unfold parseTypesField joinTypesField
    rw [show (String.mk (joinComma ((sortStrings (t0 :: trest)).map String.data))).data =
      joinComma ((sortStrings (t0 :: trest)).map String.data) from rfl]
    rw [hsplit]
    rw [map_fixed pyStrip _ (by
      intro u hu
      simp only [List.mem_map] at hu
      obtain ⟨v, hv', rfl⟩ := hu
      exact (hv v ((hmemsort v).mp hv')).2.2)]
    rw [List.filter_eq_self.mpr (by
      intro u hu
      simp only [List.mem_map] at hu
      obtain ⟨v, hv', rfl⟩ := hu
      have hne' := (hv v ((hmemsort v).mp hv')).1
      cases hd2 : v.data with
      | nil => exact absurd hd2 hne'
      | cons c cs => rfl)]
    simp only [List.mem_map, List.mem_dedup]
    constructor
    · rintro ⟨u, hu, hEq⟩
      obtain ⟨v, hv', hvu⟩ := hu
      subst hvu
      have hvx : v = x := hEq
      subst hvx
      exact (hmemsort v).mp hv'
    · intro hx
      exact ⟨x.data, ⟨x, (hmemsort x).mpr hx, rfl⟩, rfl⟩

/-- The effective settings always carry well-formed tokens, provided the
configured default set does. -/
theorem get_settings_types_valid {d : Defaults} {st : Store} {chat_id : Int}
    {s : Settings} (hvd : ∀ t ∈ d.types, validTok t)
    (hs : get_settings d st chat_id = .ok s) : ∀ t ∈ s.types, validTok t := by
  unfold get_settings at hs
  split at hs
  · cases hrow : st.rows chat_id with
    | none =>
      rw [hrow] at hs
      cases Except.ok.inj hs
      exact hvd
    | some r =>
      rw [hrow] at hs
      cases Except.ok.inj hs
      exact parseTypesField_valid r.media_types
  · exact Except.noConfusion hs

/-- Reading back right after an upsert: the row just written is returned
with its `media_types` column re-parsed. -/
theorem get_after_save (d : Defaults) {st st' : Store} {chat_id : Int}
    {ttl : Nat} {en da : Bool} {tys : List String}
    (hsave : save_settings st chat_id ttl en da tys = .ok st') :
    get_settings d st' chat_id =
      .ok ⟨ttl, en, da, parseTypesField (joinTypesField tys)⟩ := by
  unfold save_settings at hsave
  split at hsave
  · cases Except.ok.inj hsave
    unfold get_settings
    simp
  · exact Except.noConfusion hsave

/-- C6: (a) resolving a group with no stored record returns exactly the
configured process-wide defaults, and the read writes nothing to the store;
(b) after each of the five mutation commands (`/setttl`, `/pause`,
`/resume`, `/deleteadmins on|off`, `/types` with a valid argument), the
subsequent resolve reflects the new value of the mutated field while the
other three fields agree with the previously effective settings (the
media-type set up to set equality). -/
theorem C6_defaults_and_frame (d : Defaults) (st : Store) (chat_id : Int)
    (hok : st.ok = true) (hvd : ∀ t ∈ d.types, validTok t) :
    (st.rows chat_id = none →
      get_settings d st chat_id =
        .ok ⟨d.ttl, d.enabled, d.delete_admins, d.types⟩) ∧
    (get_settingsS d st chat_id).2 = st ∧
    (∀ s, get_settings d st chat_id = .ok s →
      (∀ a n rest, parse_seconds a = some n → 10 ≤ n → n ≤ 604800 →
        ∃ st' s',
          cmd_setttl d st chat_id true (a :: rest) = .ok (st', .ttlSet n) ∧
          get_settings d st' chat_id = .ok s' ∧
          s'.ttl = n ∧ s'.enabled = s.enabled ∧
          s'.delete_admins = s.delete_admins ∧
          (∀ x, x ∈ s'.types ↔ x ∈ s.types)) ∧
      (∃ st' s',
        cmd_pause d st chat_id true = .ok (st', .paused) ∧
        get_settings d st' chat_id = .ok s' ∧
        s'.ttl = s.ttl ∧ s'.enabled = false ∧
        s'.delete_admins = s.delete_admins ∧
        (∀ x, x ∈ s'.types ↔ x ∈ s.types)) ∧
      (∃ st' s',
        cmd_resume d st chat_id true = .ok (st', .resumed) ∧
        get_settings d st' chat_id = .ok s' ∧
        s'.ttl = s.ttl ∧ s'.enabled = true ∧
        s'.delete_admins = s.delete_admins ∧
        (∀ x, x ∈ s'.types ↔ x ∈ s.types)) ∧
      (∃ st' s',
        cmd_deleteadmins d st chat_id true ["on"] =
          .ok (st', .deleteAdminsSet true) ∧
        get_settings d st' chat_id = .ok s' ∧
        s'.ttl = s.ttl ∧ s'.enabled = s.enabled ∧ s'.delete_admins = true ∧
        (∀ x, x ∈ s'.types ↔ x ∈ s.types)) ∧
      (∃ st' s',
        cmd_deleteadmins d st chat_id true ["off"] =
          .ok (st', .deleteAdminsSet false) ∧
        get_settings d st' chat_id = .ok s' ∧
        s'.ttl = s.ttl ∧ s'.enabled = s.enabled ∧ s'.delete_admins = false ∧
        (∀ x, x ∈ s'.types ↔ x ∈ s.types)) ∧
      (∀ args, args ≠ [] → typesBad args = [] →
        ∃ st' s',
          cmd_types d st chat_id true args =
            .ok (st', .typesSet (typesTokens args)) ∧
          get_settings d st' chat_id = .ok s' ∧
          s'.ttl = s.ttl ∧ s'.enabled = s.enabled ∧
          s'.delete_admins = s.delete_admins ∧
          (∀ x, x ∈ s'.types ↔ x ∈ typesTokens args))) := by
  have hsave : ∀ ttl' en' da' tys',
      save_settings st chat_id ttl' en' da' tys' =
        .ok ⟨true, fun c => if c = chat_id then
            some ⟨ttl', en', da', joinTypesField tys'⟩
          else st.rows c⟩ := by
    intro ttl' en' da' tys'
    unfold save_settings
    rw [if_pos hok]
  refine ⟨?_, rfl, ?_⟩
  · intro hrow
    unfold get_settings
    rw [if_pos hok, hrow]
  · intro s hs
    have hvalid : ∀ t ∈ s.types, validTok t := get_settings_types_valid hvd hs
    have htypes := parse_join_types_mem s.types hvalid
    refine ⟨?_, ?_, ?_, ?_, ?_, ?_⟩
    · -- /setttl
      intro a n rest hparse hlo hhi
      refine ⟨_, _, ?_, get_after_save d (hsave n s.enabled s.delete_admins s.types),
        rfl, rfl, rfl, htypes⟩
      unfold cmd_setttl
      rw [if_neg (by simp)]
      simp only
      rw [hparse]
      simp only
      rw [if_neg (by omega), hs]
      simp only
      rw [hsave n s.enabled s.delete_admins s.types]
    · -- /pause
      refine ⟨_, _, ?_, get_after_save d (hsave s.ttl false s.delete_admins s.types),
        rfl, rfl, rfl, htypes⟩
      unfold cmd_pause
      rw [if_neg (by simp), hs]
      simp only
      rw [hsave s.ttl false s.delete_admins s.types]
    · -- /resume
      refine ⟨_, _, ?_, get_after_save d (hsave s.ttl true s.delete_admins s.types),
        rfl, rfl, rfl, htypes⟩
      unfold cmd_resume
      rw [if_neg (by simp), hs]
      simp only
      rw [hsave s.ttl true s.delete_admins s.types]
    · -- /deleteadmins on
      refine ⟨_, _, ?_, get_after_save d (hsave s.ttl s.enabled true s.types),
        rfl, rfl, rfl, htypes⟩
      unfold cmd_deleteadmins
      rw [if_neg (by simp)]
      simp only
      rw [show String.mk (List.map asciiLower ("on" : String).data) = "on"
        from by decide]
      rw [if_neg (by simp)]
      rw [show (("on" : String) == "on") = true from rfl, hs]
      simp only
      rw [hsave s.ttl s.enabled true s.types]
    · -- /deleteadmins off
      refine ⟨_, _, ?_, get_after_save d (hsave s.ttl s.enabled false s.types),
        rfl, rfl, rfl, htypes⟩
      unfold cmd_deleteadmins
      rw [if_neg (by simp)]
      simp only
      rw [show String.mk (List.map asciiLower ("off" : String).data) = "off"
        from by decide]
      rw [if_neg (by simp)]
      rw [show (("off" : String) == "on") = false from rfl, hs]
      simp only
      rw [hsave s.ttl s.enabled false s.types]
    · -- /types
      intro args hargsne hbadnil
      have hsub : ∀ t ∈ typesTokens args, validTok t := by
        intro t ht
        refine validTok_VALID_TYPES t ?_
        by_contra hnot
        have hmem : t ∈ typesBad args :=
          List.mem_filter.mpr ⟨ht, by simp [hnot]⟩
        rw [hbadnil] at hmem
        simp at hmem
      refine ⟨_, _, ?_,
        get_after_save d (hsave s.ttl s.enabled s.delete_admins (typesTokens args)),
        rfl, rfl, rfl, parse_join_types_mem (typesTokens args) hsub⟩
      unfold cmd_types
      rw [if_neg (by simp)]
      cases args with
      | nil => exact absurd rfl hargsne
      | cons a as =>
        simp only
        rw [if_neg (by simp [hbadnil]), hs]
        simp only
        rw [hsave s.ttl s.enabled s.delete_admins (typesTokens (a :: as))]

/-- Witness for C6 at the startup defaults and an empty store: the resolve
of group -100 yields the defaults, and `/pause` flips only `enabled`. -/
theorem C6_defaults_and_frame_witness :
    get_settings defaults0 store0 (-100) =
      .ok ⟨defaults0.ttl, defaults0.enabled, defaults0.delete_admins,
        defaults0.types⟩ ∧
    (∃ st' s',
      cmd_pause defaults0 store0 (-100) true = .ok (st', .paused) ∧
      get_settings defaults0 st' (-100) = .ok s' ∧
      s'.ttl = 300 ∧ s'.enabled = false ∧ s'.delete_admins = false ∧
      (∀ x, x ∈ s'.types ↔ x ∈ ["photo", "video", "document"])) := by
  have h := C6_defaults_and_frame defaults0 store0 (-100) rfl (by decide)
  have ha := h.1 rfl
  exact ⟨ha, (h.2.2 _ ha).2.1⟩
